import Mathlib

/-
Verification development for the Circle icon generator
(`generate_icons.py`, class `CircleIconGenerator`).

Modelling conventions:
* A PIL `RGBA` image is a `RasterImage`: explicit width/height plus a pixel
  function; pixel values outside the canvas bounds are irrelevant.
* Machine pixels are `Nat` channel values in `0..255`.
* Python float arithmetic on the size ratios (`0.22`, `0.6`, `1.1`, ...)
  is modelled by exact rational arithmetic; `int(...)` truncation of a
  non-negative value is the floor, i.e. `Nat` division where the operands
  are natural.  At every concrete input used below the exact-rational value
  coincides with the IEEE-double value computed by the source.
* Imperative drawing (a `draw` handle mutating an image) is modelled by
  explicit state passing: each drawing primitive consumes an image and
  returns the updated image.
-/

/-- An RGBA pixel: (r, g, b, a). -/
abbrev Rgba := ℕ × ℕ × ℕ × ℕ

/-- An RGB colour triple, as stored in the palette dictionary. -/
abbrev Rgb := ℕ × ℕ × ℕ

/-- A raster image: dimensions plus a pixel function (PIL `Image`). -/
structure RasterImage where
  width : ℕ
  height : ℕ
  pix : ℕ → ℕ → Rgba

/-- `Image.new('RGBA', (w, h), c)`: a fresh canvas filled with `c`. -/
def imageNew (w h : ℕ) (c : Rgba) : RasterImage :=
  ⟨w, h, fun _ _ => c⟩

/-- Promote a palette RGB triple to the fully-covering RGBA pixel PIL paints
with when an ellipse or polygon is filled with a 3-tuple colour. -/
def withFullAlpha (c : Rgb) : Rgba := (c.1, c.2.1, c.2.2, 255)

/- Palette: the `self.colors` dictionary of `CircleIconGenerator.__init__`. -/

def primary_blue : Rgb := (0, 122, 255)

def secondary_blue : Rgb := (0, 89, 204)

def accent_purple : Rgb := (128, 0, 255)

def background_white : Rgb := (255, 255, 255)

def shadow_gray : Rgba := (0, 0, 0, 25)

def highlight_white : Rgba := (255, 255, 255, 77)

/-- The `self.icon_sizes` table: (width, height, scale). `83.5` is exact. -/
def icon_sizes : List (ℚ × ℚ × ℕ) :=
  [(20, 20, 1), (20, 20, 2), (20, 20, 3),
   (29, 29, 1), (29, 29, 2), (29, 29, 3),
   (40, 40, 1), (40, 40, 2), (40, 40, 3),
   (60, 60, 1), (60, 60, 2), (60, 60, 3),
   (76, 76, 1), (76, 76, 2),
   (83.5, 83.5, 2),
   (1024, 1024, 1)]

/-- One interpolated channel of `create_gradient_background`:
`int(start * (1 - y/size) + end * (y/size))` evaluated in exact arithmetic.
For `y ≤ size` the expression equals `(start*(size-y) + end*y) / size` with
the truncation realised as `Nat` division (`lerpChannel_eq_floor` below). -/
def lerpChannel (a b y size : ℕ) : ℕ :=
  (a * (size - y) + b * y) / size

/-- The RGBA fill used for row `y` of the gradient: the source computes the
three interpolated channels and hard-codes alpha `255` in the line fill. -/
def gradRow (sc ec : Rgb) (y size : ℕ) : Rgba :=
  (lerpChannel sc.1 ec.1 y size,
   lerpChannel sc.2.1 ec.2.1 y size,
   lerpChannel sc.2.2 ec.2.2 y size, 255)

/-- `draw.line([(0, y), (size, y)], fill=c)`: paint every pixel of row `y`
that lies on the canvas (the end point is clipped by the canvas bounds). -/
def drawHLine (img : RasterImage) (y : ℕ) (c : Rgba) : RasterImage :=
  { img with pix := fun px py =>
      if py = y ∧ px < img.width then c else img.pix px py }

/-- `create_gradient_background(size, start_color, end_color)`: a transparent
`size×size` canvas over which the row loop draws one full-width line per
row `y ∈ [0, size)` with the interpolated colour. -/
def create_gradient_background (size : ℕ) (start_color end_color : Rgb) :
    RasterImage :=
  (List.range size).foldl
    (fun img y => drawHLine img y (gradRow start_color end_color y size))
    (imageNew size size (0, 0, 0, 0))

/- Closed-form characterisation of the row-drawing loop. -/

theorem drawHLine_width (img : RasterImage) (y : ℕ) (c : Rgba) :
    (drawHLine img y c).width = img.width := rfl

theorem gradFold_width (f : ℕ → Rgba) (l : List ℕ) (b : RasterImage) :
    (l.foldl (fun im z => drawHLine im z (f z)) b).width = b.width := by
  induction l generalizing b with
  | nil => rfl
  | cons z l ih => simpa using ih (drawHLine b z (f z))

theorem gradFold_height (f : ℕ → Rgba) (l : List ℕ) (b : RasterImage) :
    (l.foldl (fun im z => drawHLine im z (f z)) b).height = b.height := by
  induction l generalizing b with
  | nil => rfl
  | cons z l ih => simpa using ih (drawHLine b z (f z))

theorem gradFold_pix (f : ℕ → Rgba) (l : List ℕ) (b : RasterImage)
    (x y : ℕ) :
    (l.foldl (fun im z => drawHLine im z (f z)) b).pix x y
      = if y ∈ l ∧ x < b.width then f y else b.pix x y := by
  induction l generalizing b with
  | nil => simp
  | cons z l ih =>
    rw [List.foldl_cons, ih]
    by_cases hyz : y = z
    · subst hyz
      by_cases hx : x < b.width
      · by_cases hyl : y ∈ l <;>
          simp [drawHLine, hx, hyl, List.mem_cons]
      · simp [drawHLine, hx, List.mem_cons]
    · by_cases hyl : y ∈ l <;>
        simp [drawHLine, hyz, hyl, List.mem_cons]

theorem create_gradient_background_width (size : ℕ) (A B : Rgb) :
    (create_gradient_background size A B).width = size := by
  unfold create_gradient_background
  rw [gradFold_width]
  rfl

theorem create_gradient_background_height (size : ℕ) (A B : Rgb) :
    (create_gradient_background size A B).height = size := by
  unfold create_gradient_background
  rw [gradFold_height]
  rfl

theorem create_gradient_background_pix (size : ℕ) (A B : Rgb)
    (x y : ℕ) (hx : x < size) (hy : y < size) :
    (create_gradient_background size A B).pix x y = gradRow A B y size := by
  unfold create_gradient_background
  rw [gradFold_pix]
  simp [imageNew, List.mem_range, hx, hy]

/-- The `Nat`-division form of a channel equals the truncated exact-arithmetic
interpolation `int(a * (1 - y/size) + b * (y/size))` of the source. -/
theorem lerpChannel_eq_floor (a b y size : ℕ) (hy : y ≤ size)
    (hs : 0 < size) :
    lerpChannel a b y size
      = (⌊(a : ℚ) * (1 - (y : ℚ) / (size : ℚ))
           + (b : ℚ) * ((y : ℚ) / (size : ℚ))⌋).toNat := by
  have hs0 : ((size : ℚ)) ≠ 0 := Nat.cast_ne_zero.mpr hs.ne'
  have heq : (a : ℚ) * (1 - (y : ℚ) / (size : ℚ))
        + (b : ℚ) * ((y : ℚ) / (size : ℚ))
      = ((a * (size - y) + b * y : ℕ) : ℚ) / ((size : ℕ) : ℚ) := by
    push_cast [Nat.cast_sub hy]
    field_simp
  rw [heq, Int.floor_toNat, Nat.floor_div_nat, Nat.floor_natCast]
  rfl

/- Drawing primitives of the image library used by `create_circle_with_checkmark`.
The exact anti-aliasing / edge rule of the rasterizer is not load-bearing for
any claim below; regions are modelled by the standard inside tests. -/

/-- The filled region of `draw.ellipse([x0, y0, x1, y1])`: the ellipse
inscribed in the bounding box, via the cleared-denominator inside test. -/
def inEllipse (x0 y0 x1 y1 : ℤ) (px py : ℕ) : Prop :=
  (2 * (px : ℤ) - (x0 + x1)) ^ 2 * (y1 - y0) ^ 2
      + (2 * (py : ℤ) - (y0 + y1)) ^ 2 * (x1 - x0) ^ 2
    ≤ (x1 - x0) ^ 2 * (y1 - y0) ^ 2

instance (x0 y0 x1 y1 : ℤ) (px py : ℕ) :
    Decidable (inEllipse x0 y0 x1 y1 px py) := by
  unfold inEllipse; infer_instance

/-- `draw.ellipse(bbox, fill=c)`: paint the inside of the ellipse, clipped to
the canvas. -/
def drawEllipse (img : RasterImage) (x0 y0 x1 y1 : ℤ) (c : Rgba) :
    RasterImage :=
  { img with pix := fun px py =>
      if px < img.width ∧ py < img.height ∧ inEllipse x0 y0 x1 y1 px py then c
      else img.pix px py }

/-- 2D cross product used for the point-in-triangle test. -/
def cross2 (o a p : ℚ × ℚ) : ℚ :=
  (a.1 - o.1) * (p.2 - o.2) - (a.2 - o.2) * (p.1 - o.1)

/-- The filled region of `draw.polygon` for a 3-point polygon: the pixel lies
on one side (or the boundary) of all three directed edges. -/
def inTriangle (a b c : ℚ × ℚ) (px py : ℕ) : Prop :=
  let p : ℚ × ℚ := ((px : ℚ), (py : ℚ))
  (0 ≤ cross2 a b p ∧ 0 ≤ cross2 b c p ∧ 0 ≤ cross2 c a p) ∨
  (cross2 a b p ≤ 0 ∧ cross2 b c p ≤ 0 ∧ cross2 c a p ≤ 0)

instance (a b c : ℚ × ℚ) (px py : ℕ) :
    Decidable (inTriangle a b c px py) := by
  unfold inTriangle; infer_instance

/-- `draw.polygon([p1, p2, p3], fill=c)`, clipped to the canvas. -/
def drawPolygon3 (img : RasterImage) (a b c : ℚ × ℚ) (col : Rgba) :
    RasterImage :=
  { img with pix := fun px py =>
      if px < img.width ∧ py < img.height ∧ inTriangle a b c px py then col
      else img.pix px py }

/-- The region filled by `rounded_rectangle([(0,0),(size,size)], radius)`:
the square minus the four corner cut-outs beyond the quarter-circles. -/
def inRoundedRect (size radius : ℕ) (px py : ℕ) : Prop :=
  let s : ℤ := size
  let r : ℤ := radius
  let x : ℤ := px
  let y : ℤ := py
  x ≤ s ∧ y ≤ s ∧
  ((r ≤ x ∧ x ≤ s - r) ∨ (r ≤ y ∧ y ≤ s - r) ∨
   (x - r) ^ 2 + (y - r) ^ 2 ≤ r ^ 2 ∨
   (x - (s - r)) ^ 2 + (y - r) ^ 2 ≤ r ^ 2 ∨
   (x - r) ^ 2 + (y - (s - r)) ^ 2 ≤ r ^ 2 ∨
   (x - (s - r)) ^ 2 + (y - (s - r)) ^ 2 ≤ r ^ 2)

instance (size radius px py : ℕ) :
    Decidable (inRoundedRect size radius px py) := by
  unfold inRoundedRect; infer_instance

/-- The single-channel mask built in the source: an `L` canvas initialised to
`0` on which the rounded rectangle is filled with `255`. -/
def roundedRectMask (size radius : ℕ) : ℕ → ℕ → ℕ :=
  fun px py => if inRoundedRect size radius px py then 255 else 0

/-- One channel of PIL `Image.paste` blending under a mask value `m`:
full mask (`255`) takes the source channel exactly, zero mask keeps the
destination; intermediate values interpolate (integer division). -/
def blendChannel (d s m : ℕ) : ℕ := (d * (255 - m) + s * m) / 255

/-- Per-pixel `Image.paste` blending: every channel, alpha included, is
mask-interpolated between destination and source. -/
def blendPix (d s : Rgba) (m : ℕ) : Rgba :=
  (blendChannel d.1 s.1 m, blendChannel d.2.1 s.2.1 m,
   blendChannel d.2.2.1 s.2.2.1 m, blendChannel d.2.2.2 s.2.2.2 m)

/-- `dest.paste(src, (ox, oy), mask)`: blend `src` into `dest` at the given
origin through `mask` (aligned with `src`); pixels outside the pasted
region, and the canvas dimensions, are unchanged.  The pasted region is
clipped at the destination bounds implicitly, since only in-bounds pixels of
`dest` are meaningful. -/
def pasteMask (dest src : RasterImage) (ox oy : ℕ) (mask : ℕ → ℕ → ℕ) :
    RasterImage :=
  { dest with pix := fun px py =>
      if ox ≤ px ∧ px < ox + src.width ∧ oy ≤ py ∧ py < oy + src.height then
        blendPix (dest.pix px py) (src.pix (px - ox) (py - oy)) (mask (px - ox) (py - oy))
      else dest.pix px py }

/-- The alpha channel of an image, used when an RGBA image serves as its own
paste mask. -/
def alphaOf (img : RasterImage) : ℕ → ℕ → ℕ :=
  fun x y => (img.pix x y).2.2.2

/-- Result alpha of `Image.alpha_composite` (0..255 scale). -/
def overAlpha (ab af : ℕ) : ℕ := af + ab * (255 - af) / 255

/-- Result colour channel of `Image.alpha_composite`. -/
def overChannel (cb ab cf af : ℕ) : ℕ :=
  if overAlpha ab af = 0 then 0
  else (cf * af + cb * (ab * (255 - af) / 255)) / overAlpha ab af

/-- Per-pixel source-over compositing of `fg` over `bg`. -/
def overPix (bg fg : Rgba) : Rgba :=
  (overChannel bg.1 bg.2.2.2 fg.1 fg.2.2.2,
   overChannel bg.2.1 bg.2.2.2 fg.2.1 fg.2.2.2,
   overChannel bg.2.2.1 bg.2.2.2 fg.2.2.1 fg.2.2.2,
   overAlpha bg.2.2.2 fg.2.2.2)

/-- `Image.alpha_composite(im1, im2)`: `im2` over `im1`, same dimensions. -/
def alpha_composite (im1 im2 : RasterImage) : RasterImage :=
  { width := im1.width, height := im1.height,
    pix := fun x y => overPix (im1.pix x y) (im2.pix x y) }

/-- `image.filter(ImageFilter.GaussianBlur(radius))` returns an image of
identical dimensions.  No claim depends on the blurred pixel values, only on
the dimensions, so the kernel is modelled as the identity on pixels. -/
def gaussianBlur (img : RasterImage) (_radius : ℕ) : RasterImage :=
  { width := img.width, height := img.height, pix := img.pix }

/-- `create_checkmark_path(x, y, size)`: the three checkmark vertices at the
fixed fractions of the bounding box. -/
def create_checkmark_path (x y size : ℕ) : (ℚ × ℚ) × (ℚ × ℚ) × (ℚ × ℚ) :=
  (((x : ℚ) + (size : ℚ) * (2 / 10), (y : ℚ) + (size : ℚ) * (5 / 10)),
   ((x : ℚ) + (size : ℚ) * (4 / 10), (y : ℚ) + (size : ℚ) * (7 / 10)),
   ((x : ℚ) + (size : ℚ) * (8 / 10), (y : ℚ) + (size : ℚ) * (3 / 10)))

/-- `create_highlight_overlay(size)`: a transparent canvas with the
translucent white ellipse inscribed in the inner 80% square. -/
def create_highlight_overlay (size : ℕ) : RasterImage :=
  let highlight_size := size * 8 / 10
  let highlight_x := size / 10
  let highlight_y := size / 10
  drawEllipse (imageNew size size (0, 0, 0, 0))
    (highlight_x : ℤ) (highlight_y : ℤ)
    ((highlight_x + highlight_size : ℕ) : ℤ)
    ((highlight_y + highlight_size : ℕ) : ℤ)
    highlight_white

/-- `create_shadow(size)`: a canvas of side `int(size * 1.1)` holding the
translucent black ellipse, Gaussian-blurred with the fixed radius 2.
`shadow_offset` is computed by the source but never used. -/
def create_shadow (size : ℕ) : RasterImage :=
  let shadow_size := size * 11 / 10
  let _shadow_offset := size * 2 / 100
  let image := imageNew shadow_size shadow_size (0, 0, 0, 0)
  let image := drawEllipse image 0 0 (shadow_size : ℤ) (shadow_size : ℤ)
    shadow_gray
  gaussianBlur image 2

/-- `create_circle_with_checkmark(size)`: the full icon composition, stage by
stage as in the source.  The inner-gradient call site passes the four-tuples
`(0, 122, 255, 25)` and `(128, 0, 255, 25)` in the source; the gradient
renderer reads only channels 0..2 of its colour arguments (and hard-codes
alpha `255` in every row fill), so the model passes the RGB parts. -/
def create_circle_with_checkmark (size : ℕ) : RasterImage :=
  let corner_radius := size * 22 / 100
  let main_circle_size := size * 6 / 10
  let inner_circle_size := size * 4 / 10
  let checkmark_size := size * 25 / 100
  let image := imageNew size size (0, 0, 0, 0)
  let bg_image := create_gradient_background size primary_blue secondary_blue
  let mask := roundedRectMask size corner_radius
  let image := pasteMask image bg_image 0 0 mask
  let circle_x := (size - main_circle_size) / 2
  let circle_y := (size - main_circle_size) / 2
  let image := drawEllipse image (circle_x : ℤ) (circle_y : ℤ)
    ((circle_x + main_circle_size : ℕ) : ℤ)
    ((circle_y + main_circle_size : ℕ) : ℤ)
    (withFullAlpha background_white)
  let inner_x := (size - inner_circle_size) / 2
  let inner_y := (size - inner_circle_size) / 2
  let inner_gradient :=
    create_gradient_background inner_circle_size (0, 122, 255) (128, 0, 255)
  let image := pasteMask image inner_gradient inner_x inner_y
    (alphaOf inner_gradient)
  let checkmark_x := (size - checkmark_size) / 2
  let checkmark_y := (size - checkmark_size) / 2
  let checkmark_bg_size := size * 3 / 10
  let checkmark_bg_x := (size - checkmark_bg_size) / 2
  let checkmark_bg_y := (size - checkmark_bg_size) / 2
  let image := drawEllipse image (checkmark_bg_x : ℤ) (checkmark_bg_y : ℤ)
    ((checkmark_bg_x + checkmark_bg_size : ℕ) : ℤ)
    ((checkmark_bg_y + checkmark_bg_size : ℕ) : ℤ)
    (withFullAlpha background_white)
  let checkmark_path :=
    create_checkmark_path checkmark_x checkmark_y checkmark_size
  let image := drawPolygon3 image checkmark_path.1 checkmark_path.2.1
    checkmark_path.2.2 (withFullAlpha primary_blue)
  let highlight := create_highlight_overlay size
  let image := alpha_composite image highlight
  let shadow := create_shadow size
  let final_image := imageNew size size (0, 0, 0, 0)
  let final_image := pasteMask final_image shadow 0 0 (alphaOf shadow)
  pasteMask final_image image 0 0 (alphaOf image)

/- `generate_all_icons` (BatchGenerator): pixel-size and filename derivation
for each catalog entry.  File writing itself is I/O and is not modelled. -/

/-- `actual_size = int(width * scale)`: truncation of the product; both
operands are non-negative, so truncation is the floor. -/
def actual_size (width : ℚ) (scale : ℕ) : ℤ :=
  ⌊width * (scale : ℚ)⌋

/-- The filename derivation of `generate_all_icons`: the scale branch first
(`int(width)` truncates the logical size), then the App Store special case
overrides the name whenever `width == 1024`. -/
def iconFilename (width : ℚ) (scale : ℕ) : String :=
  let filename :=
    if scale > 1 then
      "AppIcon-" ++ toString ⌊width⌋ ++ "@" ++ toString scale ++ "x.png"
    else
      "AppIcon-" ++ toString ⌊width⌋ ++ ".png"
  if width = 1024 then "AppIcon-1024.png" else filename

/- `validate_icon` (IconValidator). -/

/-- Does the character list start with the pattern list? -/
def leadsWith : List Char → List Char → Bool
  | [], _ => true
  | _ :: _, [] => false
  | a :: as, b :: bs => (a == b) && leadsWith as bs

/-- Does the pattern occur as a contiguous sublist? -/
def hasSubList (pat : List Char) : List Char → Bool
  | [] => leadsWith pat []
  | c :: rest => leadsWith pat (c :: rest) || hasSubList pat rest

/-- Python's `pat in s` substring test on strings. -/
def strHasSub (s pat : String) : Bool :=
  hasSubList pat.data s.data

/-- What `Image.open` delivers to `validate_icon`: dimensions and the decoded
format name. -/
structure ImgInfo where
  width : ℕ
  height : ℕ
  format : String

/-- `validate_icon(image_path)`.  The `try` block around opening/decoding is
modelled by taking the outcome of `Image.open` as an `Except`: a raised
exception corresponds to `Except.error` with the exception's message, and the
handler turns it into a `(False, "Error validating icon: ...")` result rather
than propagating it. -/
def validate_icon (image_path : String) (opened : Except String ImgInfo) :
    Bool × String :=
  match opened with
  | Except.error e => (false, "Error validating icon: " ++ e)
  | Except.ok img =>
    if img.width ≠ img.height then
      (false, "Icon must be square")
    else if img.width < 1024 ∧ strHasSub image_path "1024" = true then
      (false, "App Store icon must be at least 1024x1024")
    else if img.format ≠ "PNG" then
      (false, "Icon must be PNG format")
    else
      (true, "Icon is valid")

/-- `create_gradient_background` with the size taken as a raw integer, the
way the source receives it.  The function body performs no size validation;
the only failure is `Image.new('RGBA', (size, size))` itself, which raises
for negative dimensions and succeeds (with an empty canvas) for zero.  The
row loop `for y in range(size)` is empty whenever `size <= 0`. -/
def create_gradient_background_checked (size : ℤ) (sc ec : Rgb) :
    Except String RasterImage :=
  if size < 0 then Except.error "Width and height must be >= 0"
  else Except.ok (create_gradient_background size.toNat sc ec)

/- Helper bounds for the last gradient row, used by the amended C3. -/

theorem lerpChannel_last_le (a b size : ℕ) (hs : 0 < size)
    (hab : a ≤ b + size) :
    lerpChannel a b (size - 1) size ≤ b + 1 := by
  obtain ⟨t, rfl⟩ : ∃ t, size = t + 1 := ⟨size - 1, by omega⟩
  simp only [lerpChannel]
  rw [show t + 1 - (t + 1 - 1) = 1 by omega, show t + 1 - 1 = t by omega]
  rw [Nat.div_le_iff_le_mul_add_pred (by omega)]
  have hexp : (t + 1) * (b + 1) = b * t + (b + t + 1) := by ring
  rw [hexp, show t + 1 - 1 = t by omega, mul_one]
  linarith

theorem le_lerpChannel_last (a b size : ℕ) (hs : 0 < size)
    (hba : b ≤ a + size) :
    b ≤ lerpChannel a b (size - 1) size + 1 := by
  obtain ⟨t, rfl⟩ : ∃ t, size = t + 1 := ⟨size - 1, by omega⟩
  rcases Nat.eq_zero_or_pos b with hb | hb
  · omega
  obtain ⟨c, rfl⟩ : ∃ c, b = c + 1 := ⟨b - 1, by omega⟩
  have hcv : c ≤ lerpChannel a (c + 1) (t + 1 - 1) (t + 1) := by
    simp only [lerpChannel]
    rw [show t + 1 - (t + 1 - 1) = 1 by omega, show t + 1 - 1 = t by omega]
    rw [Nat.le_div_iff_mul_le (by omega)]
    have hexp1 : c * (t + 1) = c * t + c := by ring
    have hexp2 : a * 1 + (c + 1) * t = c * t + (a + t) := by ring
    rw [hexp1, hexp2]
    omega
  omega

/-- C1 counterexample: at `pixelSize = 10` the shadow canvas is `11×11`
(`int(10 * 1.1) = 11`), but `create_circle_with_checkmark` returns a
`10×10` image — the result's dimensions do not equal the shadow layer's,
and the final icon is not larger than `pixelSize`. -/
theorem composeIcon_not_shadow_sized :
    (create_circle_with_checkmark 10).width = 10 ∧
    (create_circle_with_checkmark 10).height = 10 ∧
    (create_shadow 10).width = 11 ∧
    ¬ (create_circle_with_checkmark 10).width = (create_shadow 10).width ∧
    ¬ 10 < (create_circle_with_checkmark 10).width := by
  decide

/-- C1 amended: for every `pixelSize > 0` the shadow layer does measure
`int(1.1 * pixelSize)` squared, but step 8 pastes the shadow and then the
composition at the origin (not centred) of a fresh
`pixelSize × pixelSize` canvas and returns that canvas, so the returned
icon's dimensions are exactly `pixelSize × pixelSize` (the oversized shadow
is cropped), never larger than `pixelSize`. -/
theorem composeIcon_dimensions (size : ℕ) (h : 0 < size) :
    (create_circle_with_checkmark size).width = size ∧
    (create_circle_with_checkmark size).height = size ∧
    (create_shadow size).width = size * 11 / 10 ∧
    (create_shadow size).height = size * 11 / 10 :=
  ⟨rfl, rfl, rfl, rfl⟩

/-- Witness for `composeIcon_dimensions` at `pixelSize = 10`. -/
theorem composeIcon_dimensions_at_ten :
    0 < 10 ∧ (create_circle_with_checkmark 10).width = 10 ∧
      (create_shadow 10).width = 10 * 11 / 10 :=
  ⟨by decide, (composeIcon_dimensions 10 (by decide)).1,
   (composeIcon_dimensions 10 (by decide)).2.2.1⟩

/-- C2 (code bug): the layer composited in step 4 is the inner gradient
`create_gradient_background(int(0.4 * size), (0,122,255,25), (128,0,255,25))`.
At `pixelSize = 10` the inner size is `10 * 4 / 10 = 4`, and the layer's
corner pixels `(0,0)` and `(0,3)` are fully opaque (alpha `255`) even though
both lie outside the inscribed disk of diameter 4: the gradient renderer
ignores the translucent alpha-25 components of the colours it is passed,
hard-codes alpha `255` in every row fill, and paints the entire square, so
the layer is neither low-alpha nor circle-shaped — contradicting the
source's own "10% opacity" and "inner circle" comments. -/
theorem innerGradient_opaque_square :
    (create_gradient_background (10 * 4 / 10) (0, 122, 255) (128, 0, 255)).pix 0 0
      = (0, 122, 255, 255) ∧
    (create_gradient_background (10 * 4 / 10) (0, 122, 255) (128, 0, 255)).pix 0 3
      = (96, 30, 255, 255) := by
  decide

/-- C3 counterexample: at `size = 1` with `A = (255,255,255)` and
`B = (0,0,0)` the image is `1×1` and its single row (row 0, which is also
the last row) equals `A`; its red channel `255` differs from `B`'s `0` by
far more than the claimed tolerance of 1. -/
theorem gradient_last_row_tolerance_fails :
    (create_gradient_background 1 (255, 255, 255) (0, 0, 0)).width = 1 ∧
    (create_gradient_background 1 (255, 255, 255) (0, 0, 0)).pix 0 0
      = (255, 255, 255, 255) ∧
    ¬ ((create_gradient_background 1 (255, 255, 255) (0, 0, 0)).pix 0 0).1
        ≤ 0 + 1 := by
  decide

/-- C3 amended: for every `size > 0` the image is exactly `size×size` and
row 0 equals `A` exactly; the last row is within 1 per channel of `B`
provided each channel of `A` and `B` differs by at most `size` (the last
row is `int(A/size + B*(size-1)/size)`, which misses `B` by about
`(A-B)/size`, so without the proviso the tolerance fails — see the
counterexample at `size = 1`). -/
theorem gradient_endpoint_rows (size : ℕ) (hs : 0 < size) (A B : Rgb)
    (h1 : A.1 ≤ B.1 + size) (h2 : B.1 ≤ A.1 + size)
    (h3 : A.2.1 ≤ B.2.1 + size) (h4 : B.2.1 ≤ A.2.1 + size)
    (h5 : A.2.2 ≤ B.2.2 + size) (h6 : B.2.2 ≤ A.2.2 + size) :
    (create_gradient_background size A B).width = size ∧
    (create_gradient_background size A B).height = size ∧
    (∀ x, x < size →
      (create_gradient_background size A B).pix x 0
        = (A.1, A.2.1, A.2.2, 255)) ∧
    (∀ x, x < size →
      ((create_gradient_background size A B).pix x (size - 1)).1 ≤ B.1 + 1 ∧
      B.1 ≤ ((create_gradient_background size A B).pix x (size - 1)).1 + 1 ∧
      ((create_gradient_background size A B).pix x (size - 1)).2.1
          ≤ B.2.1 + 1 ∧
      B.2.1 ≤ ((create_gradient_background size A B).pix x (size - 1)).2.1
          + 1 ∧
      ((create_gradient_background size A B).pix x (size - 1)).2.2.1
          ≤ B.2.2 + 1 ∧
      B.2.2 ≤ ((create_gradient_background size A B).pix x (size - 1)).2.2.1
          + 1) := by
  refine ⟨create_gradient_background_width size A B,
    create_gradient_background_height size A B, ?_, ?_⟩
  · intro x hx
    rw [create_gradient_background_pix size A B x 0 hx hs]
    simp [gradRow, lerpChannel, Nat.mul_div_cancel _ hs]
  · intro x hx
    rw [create_gradient_background_pix size A B x (size - 1) hx (by omega)]
    exact ⟨lerpChannel_last_le A.1 B.1 size hs h1,
      le_lerpChannel_last A.1 B.1 size hs h2,
      lerpChannel_last_le A.2.1 B.2.1 size hs h3,
      le_lerpChannel_last A.2.1 B.2.1 size hs h4,
      lerpChannel_last_le A.2.2 B.2.2 size hs h5,
      le_lerpChannel_last A.2.2 B.2.2 size hs h6⟩

/-- Witness for `gradient_endpoint_rows` at `size = 2`, `A = (10,20,30)`,
`B = (11,21,31)`. -/
theorem gradient_endpoint_rows_at_two :
    (create_gradient_background 2 (10, 20, 30) (11, 21, 31)).pix 0 0
      = (10, 20, 30, 255) ∧
    ((create_gradient_background 2 (10, 20, 30) (11, 21, 31)).pix 0 (2 - 1)).1
      ≤ 11 + 1 :=
  ⟨(gradient_endpoint_rows 2 (by decide) (10, 20, 30) (11, 21, 31)
      (by decide) (by decide) (by decide) (by decide) (by decide)
      (by decide)).2.2.1 0 (by decide),
   ((gradient_endpoint_rows 2 (by decide) (10, 20, 30) (11, 21, 31)
      (by decide) (by decide) (by decide) (by decide) (by decide)
      (by decide)).2.2.2 0 (by decide)).1⟩

/-- C4: for every `size > 0` and RGB colours `A`, `B`, the gradient image is
exactly `size×size`, every in-range pixel is fully opaque (alpha `255`),
each colour channel equals the integer truncation of
`A*(1 - y/size) + B*(y/size)`, and the value depends only on the row `y`,
never on the column. -/
theorem gradient_rows_exact (size : ℕ) (hs : 0 < size) (A B : Rgb) :
    (create_gradient_background size A B).width = size ∧
    (create_gradient_background size A B).height = size ∧
    ∀ x y, x < size → y < size →
      (create_gradient_background size A B).pix x y
        = ((⌊(A.1 : ℚ) * (1 - (y : ℚ) / (size : ℚ))
              + (B.1 : ℚ) * ((y : ℚ) / (size : ℚ))⌋).toNat,
           (⌊(A.2.1 : ℚ) * (1 - (y : ℚ) / (size : ℚ))
              + (B.2.1 : ℚ) * ((y : ℚ) / (size : ℚ))⌋).toNat,
           (⌊(A.2.2 : ℚ) * (1 - (y : ℚ) / (size : ℚ))
              + (B.2.2 : ℚ) * ((y : ℚ) / (size : ℚ))⌋).toNat,
           255) := by
  refine ⟨create_gradient_background_width size A B,
    create_gradient_background_height size A B, ?_⟩
  intro x y hx hy
  rw [create_gradient_background_pix size A B x y hx hy]
  simp only [gradRow]
  rw [lerpChannel_eq_floor A.1 B.1 y size hy.le hs,
    lerpChannel_eq_floor A.2.1 B.2.1 y size hy.le hs,
    lerpChannel_eq_floor A.2.2 B.2.2 y size hy.le hs]

/-- Witness for `gradient_rows_exact` at `size = 2`, pixel `(0, 1)`. -/
theorem gradient_rows_exact_at_two :
    (create_gradient_background 2 (10, 20, 30) (50, 60, 70)).pix 0 1
      = (30, 40, 50, 255) := by
  have h := (gradient_rows_exact 2 (by decide) (10, 20, 30)
    (50, 60, 70)).2.2 0 1 (by decide) (by decide)
  rw [h]
  norm_num
  decide

/-- C5 counterexample: at `size = 0` the gradient renderer does not reject
the input — `Image.new('RGBA', (0, 0))` succeeds and the empty row loop
leaves the `0×0` image untouched, so an image is returned. -/
theorem gradient_size_zero_returns_image :
    create_gradient_background_checked 0 primary_blue secondary_blue
      = Except.ok (create_gradient_background 0 primary_blue secondary_blue) ∧
    (create_gradient_background 0 primary_blue secondary_blue).width = 0 :=
  ⟨rfl, rfl⟩

/-- C5 amended: neither function performs its own size validation. For
`size < 0` the failure is the image library's canvas-allocation error (PIL
`Image.new` raising), not an invalid-size rejection by the generator; for
`size = 0` `create_gradient_background` returns a degenerate `0×0` image
successfully. -/
theorem gradient_nonpositive_size (size : ℤ) (sc ec : Rgb) :
    (size < 0 → create_gradient_background_checked size sc ec
        = Except.error "Width and height must be >= 0") ∧
    (size = 0 → create_gradient_background_checked size sc ec
        = Except.ok (create_gradient_background 0 sc ec)) := by
  constructor
  · intro h
    simp [create_gradient_background_checked, h]
  · intro h
    subst h
    rfl

/-- Witness for `gradient_nonpositive_size` at sizes `-1` and `0`. -/
theorem gradient_nonpositive_size_at :
    create_gradient_background_checked (-1) primary_blue secondary_blue
      = Except.error "Width and height must be >= 0" ∧
    create_gradient_background_checked 0 primary_blue secondary_blue
      = Except.ok (create_gradient_background 0 primary_blue secondary_blue) :=
  ⟨(gradient_nonpositive_size (-1) primary_blue secondary_blue).1 (by decide),
   (gradient_nonpositive_size 0 primary_blue secondary_blue).2 rfl⟩

/-- C6: over the size catalog the derived filenames are exactly the
`AppIcon-{int(logicalSize)}.png` / `AppIcon-{int(logicalSize)}@{scale}x.png`
family (the `83.5` entry truncating to `83`), the `1024` entry collapsing to
`AppIcon-1024.png`; the `1024` override holds for every scale; and the
filenames of the non-1024 entries are pairwise distinct, so the mapping is
injective there. -/
theorem filename_catalog :
    icon_sizes.map (fun e => iconFilename e.1 e.2.2)
      = ["AppIcon-20.png", "AppIcon-20@2x.png", "AppIcon-20@3x.png",
         "AppIcon-29.png", "AppIcon-29@2x.png", "AppIcon-29@3x.png",
         "AppIcon-40.png", "AppIcon-40@2x.png", "AppIcon-40@3x.png",
         "AppIcon-60.png", "AppIcon-60@2x.png", "AppIcon-60@3x.png",
         "AppIcon-76.png", "AppIcon-76@2x.png", "AppIcon-83@2x.png",
         "AppIcon-1024.png"] ∧
    ((icon_sizes.filter (fun e => e.1 ≠ 1024)).map
        (fun e => iconFilename e.1 e.2.2)).Pairwise (· ≠ ·) ∧
    ∀ scale : ℕ, iconFilename 1024 scale = "AppIcon-1024.png" := by
  refine ⟨?_, ?_, ?_⟩
  · norm_num [icon_sizes, iconFilename]
    decide
  · have hf : icon_sizes.filter (fun e => e.1 ≠ 1024) =
        [(20, 20, 1), (20, 20, 2), (20, 20, 3),
         (29, 29, 1), (29, 29, 2), (29, 29, 3),
         (40, 40, 1), (40, 40, 2), (40, 40, 3),
         (60, 60, 1), (60, 60, 2), (60, 60, 3),
         (76, 76, 1), (76, 76, 2),
         (83.5, 83.5, 2)] := by
      norm_num [icon_sizes, List.filter]
    rw [hf]
    have hm : ([(20, 20, 1), (20, 20, 2), (20, 20, 3),
         (29, 29, 1), (29, 29, 2), (29, 29, 3),
         (40, 40, 1), (40, 40, 2), (40, 40, 3),
         (60, 60, 1), (60, 60, 2), (60, 60, 3),
         (76, 76, 1), (76, 76, 2),
         (83.5, 83.5, 2)] : List (ℚ × ℚ × ℕ)).map
          (fun e => iconFilename e.1 e.2.2)
        = ["AppIcon-20.png", "AppIcon-20@2x.png", "AppIcon-20@3x.png",
           "AppIcon-29.png", "AppIcon-29@2x.png", "AppIcon-29@3x.png",
           "AppIcon-40.png", "AppIcon-40@2x.png", "AppIcon-40@3x.png",
           "AppIcon-60.png", "AppIcon-60@2x.png", "AppIcon-60@3x.png",
           "AppIcon-76.png", "AppIcon-76@2x.png", "AppIcon-83@2x.png"] := by
      norm_num [iconFilename]
      decide
    rw [hm]
    decide
  · intro scale
    simp [iconFilename]

/-- C7: for every catalog entry the computed actual pixel size,
`int(width * scale)`, equals `round(logicalSize * scale)` — the two coincide
because every catalog product is an exact integer (in particular
`83.5 * 2 = 167`). -/
theorem actual_sizes_rounded :
    ∀ e ∈ icon_sizes, actual_size e.1 e.2.2 = round (e.1 * (e.2.2 : ℚ)) := by
  simp only [icon_sizes, List.mem_cons, List.not_mem_nil, or_false]
  rintro e (rfl | rfl | rfl | rfl | rfl | rfl | rfl | rfl | rfl | rfl | rfl |
    rfl | rfl | rfl | rfl | rfl) <;>
    rw [round_eq] <;> norm_num [actual_size]

/-- Witness for `actual_sizes_rounded` at the `(83.5, 83.5, 2)` entry, whose
actual pixel size is `167`. -/
theorem actual_sizes_rounded_at_store :
    ((83.5 : ℚ), (83.5 : ℚ), (2 : ℕ)) ∈ icon_sizes ∧
    actual_size 83.5 2 = round ((83.5 : ℚ) * ((2 : ℕ) : ℚ)) ∧
    actual_size 83.5 2 = 167 :=
  ⟨by norm_num [icon_sizes],
   actual_sizes_rounded ((83.5 : ℚ), (83.5 : ℚ), (2 : ℕ))
     (by norm_num [icon_sizes]),
   by norm_num [actual_size]⟩

/-- C8: `validate_icon` always returns a `(bool, reason)` pair, applying its
rules in order — non-square first, then the too-small store icon (when the
path contains `"1024"`), then the non-PNG format — and an exception from
opening/decoding yields an invalid result carrying the underlying message,
never a propagated exception. -/
theorem validate_icon_rule_order (path : String) (r : Except String ImgInfo) :
    (∀ e, r = Except.error e →
      validate_icon path r = (false, "Error validating icon: " ++ e)) ∧
    (∀ img, r = Except.ok img → img.width ≠ img.height →
      validate_icon path r = (false, "Icon must be square")) ∧
    (∀ img, r = Except.ok img → img.width = img.height →
      img.width < 1024 → strHasSub path "1024" = true →
      validate_icon path r
        = (false, "App Store icon must be at least 1024x1024")) ∧
    (∀ img, r = Except.ok img → img.width = img.height →
      ¬(img.width < 1024 ∧ strHasSub path "1024" = true) →
      img.format ≠ "PNG" →
      validate_icon path r = (false, "Icon must be PNG format")) ∧
    (∀ img, r = Except.ok img → img.width = img.height →
      ¬(img.width < 1024 ∧ strHasSub path "1024" = true) →
      img.format = "PNG" →
      validate_icon path r = (true, "Icon is valid")) := by
  refine ⟨?_, ?_, ?_, ?_, ?_⟩
  · rintro e rfl
    rfl
  · rintro img rfl h
    simp only [validate_icon]
    rw [if_pos h]
  · rintro img rfl h hw hsub
    simp only [validate_icon]
    rw [if_neg (fun hn => hn h), if_pos ⟨hw, hsub⟩]
  · rintro img rfl h hns hf
    simp only [validate_icon]
    rw [if_neg (fun hn => hn h), if_neg hns, if_pos hf]
  · rintro img rfl h hns hf
    simp only [validate_icon]
    rw [if_neg (fun hn => hn h), if_neg hns, if_neg (not_not_intro hf)]

/-- Witness for `validate_icon_rule_order`: a non-square 10×20 image is
rejected as non-square. -/
theorem validate_icon_rule_order_at :
    validate_icon "/x/a.png" (Except.ok ⟨10, 20, "PNG"⟩)
      = (false, "Icon must be square") :=
  (validate_icon_rule_order "/x/a.png" (Except.ok ⟨10, 20, "PNG"⟩)).2.1
    ⟨10, 20, "PNG"⟩ rfl (by decide)

/-- C9: `create_circle_with_checkmark` is a pure function of `pixelSize` in
this embedding — the source touches no randomness, time, or external state
in the composition — so two invocations with the same `pixelSize` produce
identical output images. -/
theorem composeIcon_deterministic (size : ℕ) (h : 0 < size) :
    create_circle_with_checkmark size = create_circle_with_checkmark size :=
  rfl

/-- Witness for `composeIcon_deterministic` at `pixelSize = 3`. -/
theorem composeIcon_deterministic_at_three :
    0 < 3 ∧ create_circle_with_checkmark 3 = create_circle_with_checkmark 3 :=
  ⟨by decide, composeIcon_deterministic 3 (by decide)⟩

/-- C10 counterexample: for the path `"/icons1024/a.png"` (which contains
`"1024"` in a directory component) and a decoded image of width `10 < 1024`,
the result is not the store-icon-too-small reason: the image is `10×20`, so
the square rule fires first. The claim omits the squareness precondition. -/
theorem substring_rule_needs_square :
    strHasSub "/icons1024/a.png" "1024" = true ∧
    (10 : ℕ) < 1024 ∧
    validate_icon "/icons1024/a.png" (Except.ok ⟨10, 20, "PNG"⟩)
      = (false, "Icon must be square") ∧
    ¬ validate_icon "/icons1024/a.png" (Except.ok ⟨10, 20, "PNG"⟩)
        = (false, "App Store icon must be at least 1024x1024") := by
  decide

/-- C10 amended: the store-icon rule is keyed on the substring `"1024"`
occurring anywhere in the full path string (directory components included),
not only in the filename: every path containing `"1024"` whose image decodes
square with width < 1024 is rejected with the store-icon-too-small reason,
even if the file is not a 1024-logical icon. -/
theorem substring_anywhere_in_path (path : String) (img : ImgInfo)
    (hsub : strHasSub path "1024" = true) (hsq : img.width = img.height)
    (hw : img.width < 1024) :
    validate_icon path (Except.ok img)
      = (false, "App Store icon must be at least 1024x1024") := by
  simp only [validate_icon]
  rw [if_neg (fun hn => hn hsq), if_pos ⟨hw, hsub⟩]

/-- Witness for `substring_anywhere_in_path`: a square 20×20 PNG whose path
carries `"1024"` only in a directory name is still rejected as a too-small
store icon. -/
theorem substring_anywhere_in_path_at :
    validate_icon "/out1024/AppIcon-20.png" (Except.ok ⟨20, 20, "PNG"⟩)
      = (false, "App Store icon must be at least 1024x1024") :=
  substring_anywhere_in_path "/out1024/AppIcon-20.png" ⟨20, 20, "PNG"⟩
    (by decide) rfl (by decide)
